import Mathlib

/-!
Shallow embedding of the windowed-inference reconciliation engine and
relation (association) codec of `finetune/association.py`.

Conventions of the embedding:
* token labels, label-vocabulary classes and relation-type ids are `ℕ`;
* per-token class-probability vectors are `List ℚ` (exact rationals in place
  of floats; the claims under study are about which vectors are aggregated
  and which exact arithmetic is applied, not about rounding);
* document text is `List Char`; Python slice semantics are modelled by
  `pySlice` (negative indices wrap, out-of-range bounds clamp);
* a Python character offset is `ℤ` because the sentinel `-1` marks
  padding/special tokens in `char_locs`.
-/

/-- `chunk_size = self.config.max_length - 2` (Association.predict, line 126). -/
def chunkSize (maxLength : ℕ) : ℕ := maxLength - 2

/-- `step_size = chunk_size // 3` (Association.predict, line 127). -/
def stepSize (maxLength : ℕ) : ℕ := chunkSize maxLength / 3

/-- The `start, end` pair chosen by `Association.predict` (lines 151-167):
`start, end = 0, None`; a first chunk that is not the end of its document gets
`end = step_size * 2`; a non-first chunk gets `start = step_size`, and
additionally `end = step_size * 2` unless it ends the document.
`none` models Python's `None` slice bound (slice to the end). -/
def trustedBounds (startDoc endDoc : Bool) (step : ℕ) : ℕ × Option ℕ :=
  if startDoc then (0, if endDoc then none else some (2 * step))
  else if endDoc then (step, none)
  else (step, some (2 * step))

/-- Python slicing `xs[a:end]` for `a : ℕ` and `end` either `None` or a
natural bound, as applied to `label_seq`, `position_seq` and `proba_seq`
(lines 169-171). -/
def sliceTrusted {α : Type} (xs : List α) (a : ℕ) (b? : Option ℕ) : List α :=
  match b? with
  | none => xs.drop a
  | some b => (xs.take b).drop a

/-- The token offsets of a window of length `L` that survive the trusted
slice: the positions `predict` keeps of a window's sequences. -/
def trustedOffsets (startDoc endDoc : Bool) (L step : ℕ) : List ℕ :=
  sliceTrusted (List.range L) (trustedBounds startDoc endDoc step).1
    (trustedBounds startDoc endDoc step).2

/-- Python slice index normalisation: a negative index counts from the end,
a nonnegative one clamps to the length. -/
def pyClamp (n : ℕ) (i : ℤ) : ℕ := if i < 0 then (i + n).toNat else min i.toNat n

/-- Python slicing `xs[a:b]` for arbitrary integer bounds, used for
`X[doc_idx][start_of_token:position]` (lines 182 and 187). -/
def pySlice {α : Type} (xs : List α) (a b : ℤ) : List α :=
  (xs.take (pyClamp xs.length b)).drop (pyClamp xs.length a)

/-- Python indexing `xs[i]` for an integer index: negative indices wrap.
An index that is out of range even after wrapping raises in Python; the
model returns `dflt` there (never reached by well-formed window batches,
whose first window starts a document so `doc_idx` stays in range). -/
def pyGet {α : Type} (xs : List α) (dflt : α) (i : ℤ) : α :=
  let j := if i < 0 then i + xs.length else i
  if h : 0 ≤ j ∧ j < xs.length then xs.get ⟨j.toNat, by omega⟩ else dflt

/-- The per-document accumulator of `Association.predict`: `doc_subseqs`,
`doc_labels`, `doc_probs` and `start_of_token`. -/
structure DocState where
  subseqs : List (List Char)
  labels : List ℕ
  probs : List (List (List ℚ))
  startOfToken : ℤ
deriving Repr, DecidableEq

/-- The state reset performed on a chunk that starts a document
(lines 153-158). -/
def emptyDocState : DocState := ⟨[], [], [], 0⟩

/-- Mutation of the last element of a Python list (`doc_subseqs[-1] += ...`,
`doc_probs[-1].append(...)`). -/
def updLast {α : Type} (f : α → α) : List α → List α
  | [] => []
  | [a] => [f a]
  | a :: b :: rest => a :: updLast f (b :: rest)

/-- The body of the token loop of `Association.predict` (lines 173-190):
skip the `-1` padding sentinel; open a new subsequence when none is open or
the label changed, else extend the last one; then advance `start_of_token`. -/
def processToken (doc : List Char) (st : DocState) (label : ℕ) (pos : ℤ)
    (proba : List ℚ) : DocState :=
  if pos = -1 then st
  else
    let piece := pySlice doc st.startOfToken pos
    if st.subseqs = [] ∨ st.labels.getLast? ≠ some label then
      ⟨st.subseqs ++ [piece], st.labels ++ [label], st.probs ++ [[proba]], pos⟩
    else
      ⟨updLast (· ++ piece) st.subseqs, st.labels, updLast (· ++ [proba]) st.probs, pos⟩

/-- The token loop over one window's trusted triples
(`zip(label_seq, position_seq, proba_seq)` after slicing). -/
def processTokens (doc : List Char) (st : DocState)
    (toks : List (ℕ × ℤ × List ℚ)) : DocState :=
  toks.foldl (fun s t => processToken doc s t.1 t.2.1 t.2.2) st

/-- `np.mean(np.vstack(prob_seq), axis=0)` (line 197): the elementwise
arithmetic mean of the stacked probability vectors.  `np.vstack` of an empty
list raises; the `[]` case is unreachable because every accumulated fragment
holds at least one vector. -/
def meanVecs : List (List ℚ) → List ℚ
  | [] => []
  | v :: vs => (vs.foldl (List.zipWith (· + ·)) v).map (· / ((v :: vs).length : ℚ))

/-- `dict(zip(self.input_pipeline.label_encoder.classes_, probs))` with the
pad-class entry deleted in multi-label mode (lines 194-200). -/
def finalizeProbs (classes : List ℕ) (padTok : ℕ) (multiLabel : Bool)
    (probLists : List (List (List ℚ))) : List (List (ℕ × ℚ)) :=
  probLists.map (fun ps =>
    let d := classes.zip (meanVecs ps)
    if multiLabel then d.filter (fun cp => cp.1 ≠ padTok) else d)

/-- What `predict` appends per finished document: its subsequence texts,
labels and finalized probability mappings (lines 192-204). -/
abbrev DocOut : Type := List (List Char) × List ℕ × List (List (ℕ × ℚ))

/-- Finalization of one document on its last chunk. -/
def finalizeDoc (classes : List ℕ) (padTok : ℕ) (multiLabel : Bool)
    (st : DocState) : DocOut :=
  (st.subseqs, st.labels, finalizeProbs classes padTok multiLabel st.probs)

/-- One entry of `arr_encoded`: whether `token_ids[0][0] == ENCODER.start`
(the chunk opens a document) and its `char_locs`. -/
structure EncodedWindow where
  startsDoc : Bool
  charLocs : List ℤ

/-- One entry of the per-chunk model output consumed by `predict`:
`label_seq` and `proba_seq`. -/
structure WindowPred where
  labels : List ℕ
  probas : List (List ℚ)

/-- The chunk loop of `Association.predict` (lines 138-204): for each chunk,
derive `start_of_doc` from its first token and `end_of_doc` from the next
chunk (or the batch end), pick the trusted bounds, slice the three parallel
sequences, fold the token loop, and emit the document's output on its last
chunk. -/
def predictLoop (X : List (List Char)) (step : ℕ) (classes : List ℕ)
    (padTok : ℕ) (multiLabel : Bool) :
    List (EncodedWindow × WindowPred) → ℤ → DocState → List DocOut → List DocOut
  | [], _, _, acc => acc
  | (w, p) :: rest, docIdx, st, acc =>
    let startDoc := w.startsDoc
    let endDoc := match rest with
      | [] => true
      | (w2, _) :: _ => w2.startsDoc
    let docIdx' := if startDoc then docIdx + 1 else docIdx
    let st0 := if startDoc then emptyDocState else st
    let a := (trustedBounds startDoc endDoc step).1
    let b? := (trustedBounds startDoc endDoc step).2
    let toks := (sliceTrusted p.labels a b?).zip
      ((sliceTrusted w.charLocs a b?).zip (sliceTrusted p.probas a b?))
    let st1 := processTokens (pyGet X [] docIdx') st0 toks
    let acc' := if endDoc then acc ++ [finalizeDoc classes padTok multiLabel st1] else acc
    predictLoop X step classes padTok multiLabel rest docIdx' st1 acc'

namespace Association

/-- `Association.predict` (lines 119-213), up to the external
`finetune_to_indico_sequence` mapping: from the raw texts, the encoded
chunks and the per-chunk model predictions to the per-document triples
`(doc_subseqs, doc_labels, prob_dicts)`. -/
def predict (maxLength : ℕ) (multiLabel : Bool) (classes : List ℕ)
    (padTok : ℕ) (X : List (List Char))
    (windows : List (EncodedWindow × WindowPred)) : List DocOut :=
  predictLoop X (stepSize maxLength) classes padTok multiLabel windows (-1) emptyDocState []

/-- `Association.predict_proba` (lines 224-231): its body is
`return self.predict(X)`. -/
def predict_proba (maxLength : ℕ) (multiLabel : Bool) (classes : List ℕ)
    (padTok : ℕ) (X : List (List Char))
    (windows : List (EncodedWindow × WindowPred)) : List DocOut :=
  predict maxLength multiLabel classes padTok X windows

/-- `Association._initialize` (lines 109-112): the only setup-time check is
the rejection of multi-label association; nothing inspects `max_length`. -/
structure Config where
  maxLength : ℕ
  multiLabelSequences : Bool

/-- The setup check of `Association._initialize`: raises
`FinetuneError("Multi label association not supported")` iff
`config.multi_label_sequences` is set. -/
def initCheck (cfg : Config) : Except String Unit :=
  if cfg.multiLabelSequences then Except.error "Multi label association not supported"
  else Except.ok ()

end Association

/-! ### Relation codec: `AssociationPipeline.text_to_tokens_mask` (encode)
and `Association._predict_op` (decode) -/

/-- Python exception classes relevant to the codec. -/
inductive PyError where
  | typeError
  | indexError
  | valueError
deriving Repr, DecidableEq

/-- A value occurring as one component of the `shape` argument of
`scipy.sparse.csr_matrix`: either an integer or a list of integers. -/
inductive PyShapeElt where
  | intVal (n : ℤ)
  | listVal (xs : List ℤ)

/-- scipy's per-component validation of an explicit `shape`: each component
must be usable as an integer (`operator.index` / `int(...)`); a list raises
`TypeError`. -/
def pyAsIndex : PyShapeElt → Except PyError ℤ
  | .intVal n => .ok n
  | .listVal _ => .error .typeError

/-- Model of `scipy.sparse.csr_matrix(dense, shape).toarray()`: the dense
array is accepted as-is, then the explicit `shape` argument is validated;
a shape that is not a pair of integers raises `TypeError`, and an integer
shape that disagrees with the dense array's dimensions raises (modelled as
`ValueError`). -/
def csr_matrix_dense (data : List (List ℤ)) (shape : PyShapeElt × PyShapeElt) :
    Except PyError (List (List ℤ)) :=
  match pyAsIndex shape.1, pyAsIndex shape.2 with
  | .error e, _ => .error e
  | .ok _, .error e => .error e
  | .ok m, .ok n =>
    if (m : ℤ) = data.length ∧ data.all (fun r => (r.length : ℤ) = n) then .ok data
    else .error .valueError

/-- The association-target construction of
`AssociationPipeline.text_to_tokens_mask` (lines 41-44):
`association_indicator = np.expand_dims(transform(association_type), 1)`
is a `len × 1` column of encoded relation-type ids, and
`csr_matrix(association_indicator, (idx, association_idx))` passes the
coordinate lists `(idx, association_idx)` in the position of `csr_matrix`'s
second parameter, which is `shape`. -/
def text_to_tokens_mask_associations (association_type idx association_idx : List ℤ) :
    Except PyError (List (List ℤ)) :=
  csr_matrix_dense (association_type.map (fun t => [t]))
    (PyShapeElt.listVal idx, PyShapeElt.listVal association_idx)

/-- Helper loop of `argmaxIdx`: running first-max index, as `tf.argmax`
(smallest index attaining the maximum). -/
def argmaxIdxGo (best : ℕ) (bestV : ℚ) (i : ℕ) : List ℚ → ℕ
  | [] => best
  | y :: ys => if bestV < y then argmaxIdxGo i y (i + 1) ys else argmaxIdxGo best bestV (i + 1) ys

/-- `tf.argmax(..., axis=-1)` on one score vector: the first index of the
maximum entry (`0` on an empty vector, unreachable for nonempty tensors). -/
def argmaxIdx : List ℚ → ℕ
  | [] => 0
  | x :: xs => argmaxIdxGo 0 x 1 xs

/-- `association_pred = tf.argmax(associations, axis=-1)` (line 264): the
`[L, L]` matrix of per-cell argmax relation-type ids. -/
def association_pred (scores : List (List (List ℚ))) : List (List ℕ) :=
  scores.map (fun row => row.map argmaxIdx)

/-- The association part of the value returned by `Association._predict_op`
(lines 263-266).  Line 263 computes
`association_prob = tf.softmax(associations, axis=-1)` but that value is
never used: both returned dicts carry `association_pred`, so the
"probabilities" slot holds the argmax id matrix again. -/
def predict_op_association (scores : List (List (List ℚ))) :
    List (List ℕ) × List (List ℕ) :=
  (association_pred scores, association_pred scores)

/-- The `[L, L, num_relation_types]` score tensor that is one-hot at
`[s, t, ty]`. -/
def oneHotScores (L R s t ty : ℕ) : List (List (List ℚ)) :=
  (List.range L).map (fun i =>
    (List.range L).map (fun j =>
      (List.range R).map (fun r => if i = s ∧ j = t ∧ r = ty then 1 else 0)))

/-! ### Helper lemmas -/

lemma mem_drop_range {L a x : ℕ} : x ∈ (List.range L).drop a ↔ a ≤ x ∧ x < L := by
  rw [List.mem_iff_getElem?]
  constructor
  · rintro ⟨n, hn⟩
    rw [List.getElem?_drop] at hn
    have h1 : a + n < L := by
      by_contra h
      rw [List.getElem?_eq_none (by simpa [Nat.not_lt] using h)] at hn
      exact Option.noConfusion hn
    rw [List.getElem?_range h1] at hn
    cases hn; omega
  · rintro ⟨h1, h2⟩
    exact ⟨x - a, by rw [List.getElem?_drop, List.getElem?_range (by omega)]; congr 1; omega⟩

lemma mem_take_drop_range {L a b x : ℕ} :
    x ∈ ((List.range L).take b).drop a ↔ a ≤ x ∧ x < b ∧ x < L := by
  rw [List.take_range, mem_drop_range, lt_inf_iff]

lemma two_mul_stepSize_le (maxLength : ℕ) : 2 * stepSize maxLength ≤ maxLength := by
  unfold stepSize chunkSize
  omega

lemma trustedOffsets_first_last (L s : ℕ) :
    trustedOffsets true true L s = (List.range L).drop 0 := rfl

lemma trustedOffsets_first_notlast (L s : ℕ) :
    trustedOffsets true false L s = ((List.range L).take (2 * s)).drop 0 := rfl

lemma trustedOffsets_notfirst_last (L s : ℕ) :
    trustedOffsets false true L s = (List.range L).drop s := rfl

lemma trustedOffsets_notfirst_notlast (L s : ℕ) :
    trustedOffsets false false L s = ((List.range L).take (2 * s)).drop s := rfl

/-! ### Slicing arithmetic -/

lemma drop_take_append {α : Type} (xs : List α) (a b c : ℕ) (hab : a ≤ b) (hbc : b ≤ c) :
    (xs.take b).drop a ++ (xs.take c).drop b = (xs.take c).drop a := by
  simp only [List.drop_take]
  have h1 : xs.drop b = (xs.drop a).drop (b - a) := by
    rw [List.drop_drop]
    congr 1
    omega
  rw [h1, ← List.take_add, show b - a + (c - b) = c - a by omega]

lemma pyClamp_nonneg {n : ℕ} {i : ℤ} (h : 0 ≤ i) : pyClamp n i = min i.toNat n := by
  unfold pyClamp
  rw [if_neg (by omega)]

/-- Adjacent Python slices concatenate: `xs[a:b] + xs[b:c] == xs[a:c]` for
`0 ≤ a ≤ b ≤ c`. -/
lemma pySlice_append {α : Type} (xs : List α) {a b c : ℤ} (h0 : 0 ≤ a)
    (hab : a ≤ b) (hbc : b ≤ c) :
    pySlice xs a b ++ pySlice xs b c = pySlice xs a c := by
  unfold pySlice
  rw [pyClamp_nonneg h0, pyClamp_nonneg (le_trans h0 hab),
    pyClamp_nonneg (le_trans (le_trans h0 hab) hbc)]
  exact drop_take_append xs _ _ _
    (min_le_min (Int.toNat_le_toNat hab) (le_refl _))
    (min_le_min (Int.toNat_le_toNat hbc) (le_refl _))

lemma sliceTrusted_length_eq {α β : Type} {xs : List α} {ys : List β} (a : ℕ)
    (b? : Option ℕ) (h : xs.length = ys.length) :
    (sliceTrusted xs a b?).length = (sliceTrusted ys a b?).length := by
  cases b? <;> simp [sliceTrusted, h]

lemma zip3_append {α β γ : Type} (a1 a2 : List α) (b1 b2 : List β) (c1 c2 : List γ)
    (hab : a1.length = b1.length) (hac : a1.length = c1.length) :
    (a1 ++ a2).zip ((b1 ++ b2).zip (c1 ++ c2)) =
      a1.zip (b1.zip c1) ++ a2.zip (b2.zip c2) := by
  rw [List.zip_append (show b1.length = c1.length by omega),
    List.zip_append (show a1.length = (b1.zip c1).length by simp [List.length_zip]; omega)]

lemma processTokens_append (doc : List Char) (st : DocState)
    (t1 t2 : List (ℕ × ℤ × List ℚ)) :
    processTokens doc st (t1 ++ t2) = processTokens doc (processTokens doc st t1) t2 :=
  List.foldl_append _ _ _ _

lemma sliceTrusted_zero_none {α : Type} (xs : List α) : sliceTrusted xs 0 none = xs := rfl

/-! ### Window coverage of a document (claim C2) -/

/-- The `(start_of_doc, end_of_doc)` flags a document's windows receive in
`predict`'s chunk loop (lines 142-146) when the batch holds that document's
windows in order: the head chunk starts the document, the final chunk ends
it. -/
def windowsWithFlags {α : Type} : Bool → List α → List (Bool × Bool × α)
  | _, [] => []
  | first, [a] => [(first, true, a)]
  | first, a :: b :: rest => (first, false, a) :: windowsWithFlags false (b :: rest)

/-- A window is `(start, len)`: its first absolute document-token position
and its count of non-padding document tokens.  `absTrusted` maps the
window's trusted token offsets to absolute document-token positions. -/
def absTrusted (step : ℕ) (first last : Bool) (w : ℕ × ℕ) : List ℕ :=
  (trustedOffsets first last w.2 step).map (w.1 + ·)

/-- How many of the flagged windows' trusted ranges contain `pos`. -/
def coverFlagged (step pos : ℕ) (l : List (Bool × Bool × (ℕ × ℕ))) : ℕ :=
  (l.map (fun t => if pos ∈ absTrusted step t.1 t.2.1 t.2.2 then 1 else 0)).sum

/-- How many of a document's windows' trusted ranges (mapped to absolute
document-token positions) contain position `pos`. -/
def docCoverCount (step : ℕ) (ws : List (ℕ × ℕ)) (pos : ℕ) : ℕ :=
  coverFlagged step pos (windowsWithFlags true ws)

/-- One past the last absolute token position of a document's window list. -/
def docEnd : List (ℕ × ℕ) → ℕ
  | [] => 0
  | [w] => w.1 + w.2
  | _ :: w :: rest => docEnd (w :: rest)

/-- The corrected caller contract under which the trusted ranges tile a
document exactly: windows start `step` apart (each overlaps the previous by
its length minus `step`), every non-last window holds at least `2*step`
non-padding tokens, and the last holds at least `step`. -/
inductive StrideWindows (step : ℕ) : ℕ → List (ℕ × ℕ) → Prop
  | last (p n : ℕ) : step ≤ n → StrideWindows step p [(p, n)]
  | cons (p n : ℕ) (rest : List (ℕ × ℕ)) : 2 * step ≤ n →
      StrideWindows step (p + step) rest → StrideWindows step p ((p, n) :: rest)

lemma StrideWindows.ne_nil {s q : ℕ} {ws : List (ℕ × ℕ)}
    (h : StrideWindows s q ws) : ws ≠ [] := by cases h <;> simp

lemma mem_absTrusted_first_last {s p n pos : ℕ} :
    pos ∈ absTrusted s true true (p, n) ↔ p ≤ pos ∧ pos < p + n := by
  simp only [absTrusted, trustedOffsets_first_last, List.mem_map, mem_drop_range]
  constructor
  · rintro ⟨x, hx, rfl⟩; omega
  · intro h; exact ⟨pos - p, by omega, by omega⟩

lemma mem_absTrusted_first_notlast {s p n pos : ℕ} :
    pos ∈ absTrusted s true false (p, n) ↔ p ≤ pos ∧ pos < p + 2 * s ∧ pos < p + n := by
  simp only [absTrusted, trustedOffsets_first_notlast, List.mem_map, mem_take_drop_range]
  constructor
  · rintro ⟨x, hx, rfl⟩; omega
  · intro h; exact ⟨pos - p, by omega, by omega⟩

lemma mem_absTrusted_notfirst_last {s p n pos : ℕ} :
    pos ∈ absTrusted s false true (p, n) ↔ p + s ≤ pos ∧ pos < p + n := by
  simp only [absTrusted, trustedOffsets_notfirst_last, List.mem_map, mem_drop_range]
  constructor
  · rintro ⟨x, hx, rfl⟩; omega
  · intro h; exact ⟨pos - p, by omega, by omega⟩

lemma mem_absTrusted_notfirst_notlast {s p n pos : ℕ} :
    pos ∈ absTrusted s false false (p, n) ↔
      p + s ≤ pos ∧ pos < p + 2 * s ∧ pos < p + n := by
  simp only [absTrusted, trustedOffsets_notfirst_notlast, List.mem_map, mem_take_drop_range]
  constructor
  · rintro ⟨x, hx, rfl⟩; omega
  · intro h; exact ⟨pos - p, by omega, by omega⟩

/-- On the non-first windows of a document, trusted ranges tile exactly the
interval from `q + step` (one step into the suffix's first window) to the
document end. -/
lemma coverFlagged_suffix (s : ℕ) {q : ℕ} {ws : List (ℕ × ℕ)}
    (h : StrideWindows s q ws) (pos : ℕ) :
    coverFlagged s pos (windowsWithFlags false ws) =
      (if q + s ≤ pos ∧ pos < docEnd ws then 1 else 0) ∧
    q + s ≤ docEnd ws := by
  induction h with
  | last p n hn =>
    simp only [windowsWithFlags, coverFlagged, List.map_cons, List.map_nil,
      List.sum_cons, List.sum_nil, docEnd, mem_absTrusted_notfirst_last]
    constructor
    · split_ifs <;> omega
    · omega
  | cons p n rest h2s hrest ih =>
    obtain ⟨hd, tl, rfl⟩ : ∃ hd tl, rest = hd :: tl := by
      cases rest with
      | nil => exact absurd rfl hrest.ne_nil
      | cons hd tl => exact ⟨hd, tl, rfl⟩
    have hsum : coverFlagged s pos (windowsWithFlags false ((p, n) :: hd :: tl)) =
        (if pos ∈ absTrusted s false false (p, n) then 1 else 0) +
          coverFlagged s pos (windowsWithFlags false (hd :: tl)) := by
      simp [windowsWithFlags, coverFlagged]
    have hend : docEnd ((p, n) :: hd :: tl) = docEnd (hd :: tl) := rfl
    rw [hsum, hend, ih.1]
    simp only [mem_absTrusted_notfirst_notlast]
    have hE := ih.2
    constructor
    · split_ifs <;> omega
    · omega

/-! ### Argmax of a one-hot score vector (claim C7) -/

lemma argmaxIdxGo_of_le (best : ℕ) (bestV : ℚ) (ys : List ℚ) :
    ∀ i, (∀ y ∈ ys, y ≤ bestV) → argmaxIdxGo best bestV i ys = best := by
  induction ys with
  | nil => intro i _; rfl
  | cons y ys ih =>
    intro i h
    rw [argmaxIdxGo, if_neg (not_lt.mpr (h y (List.mem_cons_self y ys)))]
    exact ih (i + 1) (fun z hz => h z (List.mem_cons_of_mem y hz))

lemma argmaxIdxGo_zeros_one (k : ℕ) : ∀ (m best i : ℕ),
    argmaxIdxGo best 0 i (List.replicate m 0 ++ 1 :: List.replicate k 0) = i + m := by
  intro m
  induction m with
  | zero =>
    intro best i
    rw [List.replicate_zero, List.nil_append, argmaxIdxGo, if_pos (by norm_num)]
    rw [argmaxIdxGo_of_le i 1 (List.replicate k 0) (i + 1)
      (fun y hy => by rw [(List.mem_replicate.mp hy).2]; norm_num)]
    omega
  | succ m ih =>
    intro best i
    rw [List.replicate_succ, List.cons_append, argmaxIdxGo, if_neg (by norm_num)]
    rw [ih best (i + 1)]
    omega

lemma argmaxIdx_replicate_onehot (ty k : ℕ) :
    argmaxIdx (List.replicate ty 0 ++ 1 :: List.replicate k 0) = ty := by
  cases ty with
  | zero =>
    rw [List.replicate_zero, List.nil_append, argmaxIdx]
    exact argmaxIdxGo_of_le 0 1 (List.replicate k 0) 1
      (fun y hy => by rw [(List.mem_replicate.mp hy).2]; norm_num)
  | succ u =>
    rw [List.replicate_succ, List.cons_append, argmaxIdx]
    rw [argmaxIdxGo_zeros_one k u 0 1]
    omega

lemma map_indicator_range' (R : ℕ) : ∀ (a ty : ℕ), ty < R →
    (List.range' a R).map (fun r => if r = a + ty then (1 : ℚ) else 0) =
      List.replicate ty 0 ++ 1 :: List.replicate (R - ty - 1) 0 := by
  induction R with
  | zero => intro a ty h; omega
  | succ R ih =>
    intro a ty h
    rw [List.range'_succ, List.map_cons]
    cases ty with
    | zero =>
      rw [if_pos (by omega)]
      have htail : (List.range' (a + 1) R).map (fun r => if r = a + 0 then (1 : ℚ) else 0) =
          List.replicate R 0 := by
        have : ∀ (R' a' : ℕ), a + 0 < a' →
            (List.range' a' R').map (fun r => if r = a + 0 then (1 : ℚ) else 0) =
              List.replicate R' 0 := by
          intro R'
          induction R' with
          | zero => intro a' _; rfl
          | succ R' ih' =>
            intro a' ha'
            rw [List.range'_succ, List.map_cons, if_neg (by omega),
              List.replicate_succ, ih' (a' + 1) (by omega)]
        exact this R (a + 1) (by omega)
      rw [htail, List.replicate_zero, List.nil_append]
      simp
    | succ u =>
      rw [if_neg (by omega)]
      have harg : (List.range' (a + 1) R).map (fun r => if r = a + (u + 1) then (1 : ℚ) else 0) =
          (List.range' (a + 1) R).map (fun r => if r = (a + 1) + u then (1 : ℚ) else 0) := by
        have : a + (u + 1) = (a + 1) + u := by omega
        rw [this]
      rw [harg, ih (a + 1) u (by omega), List.replicate_succ, List.cons_append]
      have : R + 1 - (u + 1) - 1 = R - u - 1 := by omega
      rw [this]

lemma onehot_vec_eq (R ty : ℕ) (h : ty < R) :
    (List.range R).map (fun r => if r = ty then (1 : ℚ) else 0) =
      List.replicate ty 0 ++ 1 :: List.replicate (R - ty - 1) 0 := by
  rw [List.range_eq_range']
  have := map_indicator_range' R 0 ty h
  simpa using this

lemma argmaxIdx_onehot (R ty : ℕ) (h : ty < R) :
    argmaxIdx ((List.range R).map (fun r => if r = ty then (1 : ℚ) else 0)) = ty := by
  rw [onehot_vec_eq R ty h, argmaxIdx_replicate_onehot]

/-! ### Theorems -/

/-- **C10.** `predict_proba` returns exactly `predict`'s value on every
input: the two entry points are extensionally equal. -/
theorem predict_proba_eq_predict (maxLength : ℕ) (multiLabel : Bool)
    (classes : List ℕ) (padTok : ℕ) (X : List (List Char))
    (windows : List (EncodedWindow × WindowPred)) :
    Association.predict_proba maxLength multiLabel classes padTok X windows =
      Association.predict maxLength multiLabel classes padTok X windows := rfl

/-- **C1.** With `chunk_size = max_length - 2` and
`step = chunk_size / 3`, the trusted sub-range of token offsets selected by
`predict` for a window (of padded length `max_length`) is `[0, max_length)`
for a first-and-last window, `[0, 2*step)` for a first-not-last window,
`[step, max_length)` for a last-not-first window, and `[step, 2*step)`
otherwise. -/
theorem trusted_range_policy (maxLength x : ℕ) :
    chunkSize maxLength = maxLength - 2 ∧
    stepSize maxLength = chunkSize maxLength / 3 ∧
    (x ∈ trustedOffsets true true maxLength (stepSize maxLength) ↔ x < maxLength) ∧
    (x ∈ trustedOffsets true false maxLength (stepSize maxLength) ↔
      x < 2 * stepSize maxLength) ∧
    (x ∈ trustedOffsets false true maxLength (stepSize maxLength) ↔
      stepSize maxLength ≤ x ∧ x < maxLength) ∧
    (x ∈ trustedOffsets false false maxLength (stepSize maxLength) ↔
      stepSize maxLength ≤ x ∧ x < 2 * stepSize maxLength) := by
  have h2 := two_mul_stepSize_le maxLength
  refine ⟨rfl, rfl, ?_, ?_, ?_, ?_⟩
  · rw [trustedOffsets_first_last, mem_drop_range]; omega
  · rw [trustedOffsets_first_notlast, mem_take_drop_range]; omega
  · rw [trustedOffsets_notfirst_last, mem_drop_range]
  · rw [trustedOffsets_notfirst_notlast, mem_take_drop_range]; omega

/-- **C5 (code bug).** `_predict_op` computes
`association_prob = tf.softmax(associations, axis=-1)` but never returns it:
both components of its association output are the argmax id matrix, so the
"confidence" slot of the result holds relation-type ids, not softmax
probabilities.  On the concrete score tensor `[[[1, 0]]]` the confidence
slot holds `0`, which no softmax probability of a selected class can be
(softmax entries are strictly positive). -/
theorem predict_op_confidence_is_pred :
    (∀ scores : List (List (List ℚ)),
      (predict_op_association scores).2 = (predict_op_association scores).1) ∧
    predict_op_association [[[1, 0]]] = ([[0]], [[0]]) :=
  ⟨fun _ => rfl, by decide⟩

/-- **C6 (code bug).** The association-target encoding of
`text_to_tokens_mask` never produces the `[max_length, max_length]` matrix:
`csr_matrix(association_indicator, (idx, association_idx))` passes the
coordinate lists as `csr_matrix`'s `shape` parameter, and scipy raises a
`TypeError` because a shape component must be an integer, for every input
with relation tuples (in-range or not). -/
theorem text_to_tokens_mask_raises (association_type idx association_idx : List ℤ) :
    text_to_tokens_mask_associations association_type idx association_idx =
      Except.error PyError.typeError := rfl

/-- **C9 (code bug).** A training relation tuple whose token index `12` is
outside `[0, max_length) = [0, 10)` makes the encode step fail — but with
the `TypeError` of the miscalled `csr_matrix` (the same failure every
relational input gets, in-range or not), not an `IndexError`-class
bounds condition for the offending tuple. -/
theorem out_of_range_relation_error :
    text_to_tokens_mask_associations [1] [12] [1] = Except.error PyError.typeError ∧
    PyError.typeError ≠ PyError.indexError :=
  ⟨rfl, by decide⟩

/-- **C8 counterexample.** A configuration with `max_length = 4` has
`step = (4 - 2) / 3 = 0`, yet setup does not reject it:
`Association._initialize` checks only `multi_label_sequences`, and `predict`
runs under that configuration and produces output. -/
theorem step_zero_passes_setup :
    stepSize 4 = 0 ∧
    Association.initCheck ⟨4, false⟩ = Except.ok () ∧
    Association.predict 4 false [] 0 [['a', 'b']]
        [(⟨true, [1, 2]⟩, ⟨[0, 0], [[1], [1]]⟩)] =
      [([['a', 'b']], [0], [[]])] :=
  ⟨rfl, rfl, by decide⟩

/-- **C8 (amended).** Setup validates only the labeling mode: a
configuration whose `step` is `0` but which does not request multi-label
association passes `_initialize` without error (no `max_length` check
exists anywhere in setup). -/
theorem initCheck_rejects_only_multilabel (cfg : Association.Config)
    (_h0 : stepSize cfg.maxLength = 0) (hm : cfg.multiLabelSequences = false) :
    Association.initCheck cfg = Except.ok () := by
  simp [Association.initCheck, hm]

/-- Witness for `initCheck_rejects_only_multilabel` at
`max_length = 4`, `multi_label_sequences = false`. -/
theorem initCheck_rejects_only_multilabel_witness :
    stepSize 4 = 0 ∧ Association.initCheck ⟨4, false⟩ = Except.ok () :=
  ⟨rfl, initCheck_rejects_only_multilabel ⟨4, false⟩ rfl rfl⟩

/-- **C2 counterexample.** With `max_length = 13` (`step = 3 > 0`), the two
windows `(start 0, 11 tokens)` and `(start 5, 11 tokens)` are in
left-to-right order and overlap by `(0 + 11) - 5 = 6 = 2*step` tokens —
satisfying the claimed interface requirement — yet absolute document-token
position 6 (a non-padding token of both windows) lies in no window's
trusted range: the first (not last) window trusts `[0, 6)` and the last
(not first) trusts `[5 + 3, 16) = [8, 16)`. -/
theorem coverage_gap_counterexample :
    stepSize 13 = 3 ∧ 0 < stepSize 13 ∧
    (0 : ℕ) < 5 ∧ 5 + 2 * stepSize 13 ≤ 0 + 11 ∧
    (6 : ℕ) < 0 + 11 ∧ (5 : ℕ) ≤ 6 ∧ (6 : ℕ) < 5 + 11 ∧
    docCoverCount (stepSize 13) [(0, 11), (5, 11)] 6 = 0 := by decide

/-- **C2 (amended).** When a document's windows are supplied left-to-right
with each window starting exactly `step` tokens after the previous one
(equivalently: overlapping the previous by its length minus `step`), every
non-last window carrying at least `2*step` non-padding tokens and the last
at least `step`, every document-token position below the document end is
contained in exactly one window's trusted range mapped to absolute
document-token positions. -/
theorem coverage_exactly_once (s : ℕ) (ws : List (ℕ × ℕ)) (pos : ℕ)
    (_hs : 0 < s) (hw : StrideWindows s 0 ws) (hpos : pos < docEnd ws) :
    docCoverCount s ws pos = 1 := by
  cases hw with
  | last p n hn =>
    simp only [docCoverCount, windowsWithFlags, coverFlagged, List.map_cons,
      List.map_nil, List.sum_cons, List.sum_nil, mem_absTrusted_first_last]
    simp only [docEnd] at hpos
    split_ifs <;> omega
  | cons p n rest h2s hrest =>
    obtain ⟨hd, tl, rfl⟩ : ∃ hd tl, rest = hd :: tl := by
      cases rest with
      | nil => exact absurd rfl hrest.ne_nil
      | cons hd tl => exact ⟨hd, tl, rfl⟩
    have hsum : docCoverCount s ((0, n) :: hd :: tl) pos =
        (if pos ∈ absTrusted s true false (0, n) then 1 else 0) +
          coverFlagged s pos (windowsWithFlags false (hd :: tl)) := by
      simp [docCoverCount, windowsWithFlags, coverFlagged]
    obtain ⟨hrec, hEnd⟩ := coverFlagged_suffix s hrest pos
    have hend : docEnd ((0, n) :: hd :: tl) = docEnd (hd :: tl) := rfl
    rw [hend] at hpos
    rw [hsum, hrec]
    simp only [mem_absTrusted_first_notlast]
    split_ifs <;> omega

/-- **C4.** A single window (first and last of its document) whose trusted
tokens have labels `[A, A, B, B, B, A]` and character end-offsets
`[2, 4, 6, 8, 10, 12]` over a document of length at least 12 reconciles to
exactly 3 spans with labels `[A, B, A]`, texts the document slices
`[0, 4)`, `[4, 10)` and `[10, 12)`, and finalized probability distributions
the elementwise arithmetic means of the member tokens' vectors. -/
theorem span_merge_correct (d : List Char) (A B : ℕ) (hAB : A ≠ B)
    (_hlen : 12 ≤ d.length) (q1 q2 q3 q4 q5 q6 : List ℚ)
    (classes : List ℕ) (padTok maxLength : ℕ) :
    Association.predict maxLength false classes padTok [d]
        [(⟨true, [2, 4, 6, 8, 10, 12]⟩, ⟨[A, A, B, B, B, A], [q1, q2, q3, q4, q5, q6]⟩)] =
      [([pySlice d 0 4, pySlice d 4 10, pySlice d 10 12], [A, B, A],
        [classes.zip ((List.zipWith (· + ·) q1 q2).map (· / 2)),
         classes.zip ((List.zipWith (· + ·) (List.zipWith (· + ·) q3 q4) q5).map (· / 3)),
         classes.zip q6])] := by
  have hBA := Ne.symm hAB
  have e1 : pySlice d 0 2 ++ pySlice d 2 4 = pySlice d 0 4 :=
    pySlice_append d (by norm_num) (by norm_num) (by norm_num)
  have e2a : pySlice d 4 6 ++ pySlice d 6 8 = pySlice d 4 8 :=
    pySlice_append d (by norm_num) (by norm_num) (by norm_num)
  have e2b : pySlice d 4 8 ++ pySlice d 8 10 = pySlice d 4 10 :=
    pySlice_append d (by norm_num) (by norm_num) (by norm_num)
  simp [Association.predict, predictLoop, processTokens, processToken, pyGet,
    emptyDocState, updLast, finalizeDoc, finalizeProbs, meanVecs, sliceTrusted,
    trustedBounds, hAB, hBA, e1, e2a, e2b, div_one]
  norm_num

/-- Witness for `span_merge_correct`: document `'a' * 12`, labels `0`/`1`,
all probability vectors `[1]`. -/
theorem span_merge_correct_witness :
    (0 : ℕ) ≠ 1 ∧ 12 ≤ (List.replicate 12 'a').length ∧
    Association.predict 12 false [0, 1] 0 [List.replicate 12 'a']
        [(⟨true, [2, 4, 6, 8, 10, 12]⟩,
          ⟨[0, 0, 1, 1, 1, 0], [[1], [1], [1], [1], [1], [1]]⟩)] =
      [([pySlice (List.replicate 12 'a') 0 4, pySlice (List.replicate 12 'a') 4 10,
         pySlice (List.replicate 12 'a') 10 12], [0, 1, 0],
        [([0, 1] : List ℕ).zip ((List.zipWith (· + ·) [1] [1]).map (· / 2)),
         ([0, 1] : List ℕ).zip
           ((List.zipWith (· + ·) (List.zipWith (· + ·) [1] [1]) [1]).map (· / 3)),
         ([0, 1] : List ℕ).zip [1]])] :=
  ⟨by decide, by decide,
    span_merge_correct (List.replicate 12 'a') 0 1 (by decide) (by decide)
      [1] [1] [1] [1] [1] [1] [0, 1] 0 12⟩

/-- **C3.** For `max_length = 12` (`chunk_size = 10`, `step = 3`), a
document presented as three windows (first, middle, last) whose trusted
thirds carry pairwise distinct labels reconciles to exactly the output of
running the same loop once over the single window formed by concatenating
the three trusted slices. -/
theorem multi_window_stitching (d : List Char) (classes : List ℕ) (padTok : ℕ)
    (c0 c1 c2 : List ℤ) (l0 l1 l2 : List ℕ) (q0 q1 q2 : List (List ℚ))
    (A B C : ℕ)
    (h0l : l0.length = c0.length) (h0q : q0.length = c0.length)
    (h1l : l1.length = c1.length) (h1q : q1.length = c1.length)
    (_h2l : l2.length = c2.length) (_h2q : q2.length = c2.length)
    (_hA : ∀ x ∈ sliceTrusted l0 0 (some 6), x = A)
    (_hB : ∀ x ∈ sliceTrusted l1 3 (some 6), x = B)
    (_hC : ∀ x ∈ sliceTrusted l2 3 none, x = C)
    (_hAB : A ≠ B) (_hBC : B ≠ C) (_hAC : A ≠ C) :
    Association.predict 12 false classes padTok [d]
        [(⟨true, c0⟩, ⟨l0, q0⟩), (⟨false, c1⟩, ⟨l1, q1⟩), (⟨false, c2⟩, ⟨l2, q2⟩)] =
      Association.predict 12 false classes padTok [d]
        [(⟨true, sliceTrusted c0 0 (some 6) ++ sliceTrusted c1 3 (some 6) ++
            sliceTrusted c2 3 none⟩,
          ⟨sliceTrusted l0 0 (some 6) ++ sliceTrusted l1 3 (some 6) ++
            sliceTrusted l2 3 none,
           sliceTrusted q0 0 (some 6) ++ sliceTrusted q1 3 (some 6) ++
            sliceTrusted q2 3 none⟩)] := by
  have e1 := zip3_append (sliceTrusted l0 0 (some 6))
    (sliceTrusted l1 3 (some 6) ++ sliceTrusted l2 3 none)
    (sliceTrusted c0 0 (some 6))
    (sliceTrusted c1 3 (some 6) ++ sliceTrusted c2 3 none)
    (sliceTrusted q0 0 (some 6))
    (sliceTrusted q1 3 (some 6) ++ sliceTrusted q2 3 none)
    (sliceTrusted_length_eq 0 (some 6) h0l)
    (sliceTrusted_length_eq 0 (some 6) (show l0.length = q0.length by omega))
  have e2 := zip3_append (sliceTrusted l1 3 (some 6)) (sliceTrusted l2 3 none)
    (sliceTrusted c1 3 (some 6)) (sliceTrusted c2 3 none)
    (sliceTrusted q1 3 (some 6)) (sliceTrusted q2 3 none)
    (sliceTrusted_length_eq 3 (some 6) h1l)
    (sliceTrusted_length_eq 3 (some 6) (show l1.length = q1.length by omega))
  simp only [Association.predict, predictLoop, stepSize, chunkSize, trustedBounds,
    Nat.reduceSub, Nat.reduceDiv, Nat.reduceMul, if_true, if_false, Bool.false_eq_true,
    ite_true, ite_false, List.nil_append, sliceTrusted_zero_none, List.append_assoc,
    e1, e2, processTokens_append]

/-- **C7 counterexample.** For a 2-token document and the relation triple
`(source, target, type) = (0, 1, 0)` with 2 relation types: the encode step
raises (the miscalled `csr_matrix`, claim C6) instead of producing the
target matrix, and decoding the score tensor one-hot at `[0, 1, 0]` puts
`0` — the argmax type id, not a softmax confidence — in the confidence
slot at row 0, column 1, so the decoded confidence is `0`, not `1.0`
(the true softmax confidence of the chosen type, `e/(e+1) ≈ 0.731`, is not
`1.0` either). -/
theorem relation_roundtrip_counterexample :
    text_to_tokens_mask_associations [0] [0] [1] = Except.error PyError.typeError ∧
    ((association_pred (oneHotScores 2 2 0 1 0)).getD 0 []).getD 1 0 = 0 ∧
    (((predict_op_association (oneHotScores 2 2 0 1 0)).2.getD 0 []).getD 1 0 = 0 ∧
      (0 : ℕ) ≠ 1) :=
  ⟨rfl, by decide, by decide, by decide⟩

/-- **C7 (amended).** Decoding a score tensor one-hot at
`[source, target, type]` does recover `type` as the decoded id at cell
`[source, target]`, but the parallel "confidence" output is the argmax id
matrix itself (not softmax values, and not `1.0`), and the encode step
fails with the `TypeError` of the miscalled `csr_matrix` instead of
producing a matrix to round-trip. -/
theorem relation_roundtrip_amended (L R s t ty : ℕ)
    (hs : s < L) (ht : t < L) (hty : ty < R) :
    ((association_pred (oneHotScores L R s t ty)).getD s []).getD t 0 = ty ∧
    (predict_op_association (oneHotScores L R s t ty)).2 =
      (predict_op_association (oneHotScores L R s t ty)).1 ∧
    text_to_tokens_mask_associations [(ty : ℤ)] [(s : ℤ)] [(t : ℤ)] =
      Except.error PyError.typeError := by
  refine ⟨?_, rfl, rfl⟩
  unfold association_pred oneHotScores
  simp only [List.map_map, List.getD_eq_getElem?_getD, List.getElem?_map,
    List.getElem?_range hs, List.getElem?_range ht, Option.map_some',
    Option.getD_some, Function.comp_apply, eq_self_iff_true, true_and]
  exact argmaxIdx_onehot R ty hty

/-- Witness for `relation_roundtrip_amended` at `L = 3`, `R = 2`,
`(source, target, type) = (1, 2, 1)`. -/
theorem relation_roundtrip_amended_witness :
    (1 : ℕ) < 3 ∧ (2 : ℕ) < 3 ∧ (1 : ℕ) < 2 ∧
    (((association_pred (oneHotScores 3 2 1 2 1)).getD 1 []).getD 2 0 = 1 ∧
     (predict_op_association (oneHotScores 3 2 1 2 1)).2 =
       (predict_op_association (oneHotScores 3 2 1 2 1)).1 ∧
     text_to_tokens_mask_associations [((1 : ℕ) : ℤ)] [((1 : ℕ) : ℤ)] [((2 : ℕ) : ℤ)] =
       Except.error PyError.typeError) :=
  ⟨by decide, by decide, by decide,
    relation_roundtrip_amended 3 2 1 2 1 (by decide) (by decide) (by decide)⟩

/-- Witness for `multi_window_stitching`: three windows of 12 tokens whose
label sequences are constant `0`, `1` and `2`. -/
theorem multi_window_stitching_witness :
    (∀ x ∈ sliceTrusted (List.replicate 12 (0 : ℕ)) 0 (some 6), x = 0) ∧
    (∀ x ∈ sliceTrusted (List.replicate 12 (1 : ℕ)) 3 (some 6), x = 1) ∧
    (∀ x ∈ sliceTrusted (List.replicate 12 (2 : ℕ)) 3 none, x = 2) ∧
    Association.predict 12 false [0, 1, 2] 0 [List.replicate 12 'a']
        [(⟨true, List.replicate 12 0⟩,
          ⟨List.replicate 12 0, List.replicate 12 [1]⟩),
         (⟨false, List.replicate 12 0⟩,
          ⟨List.replicate 12 1, List.replicate 12 [1]⟩),
         (⟨false, List.replicate 12 0⟩,
          ⟨List.replicate 12 2, List.replicate 12 [1]⟩)] =
      Association.predict 12 false [0, 1, 2] 0 [List.replicate 12 'a']
        [(⟨true, sliceTrusted (List.replicate 12 0) 0 (some 6) ++
            sliceTrusted (List.replicate 12 0) 3 (some 6) ++
            sliceTrusted (List.replicate 12 0) 3 none⟩,
          ⟨sliceTrusted (List.replicate 12 0) 0 (some 6) ++
            sliceTrusted (List.replicate 12 1) 3 (some 6) ++
            sliceTrusted (List.replicate 12 2) 3 none,
           sliceTrusted (List.replicate 12 [1]) 0 (some 6) ++
            sliceTrusted (List.replicate 12 [1]) 3 (some 6) ++
            sliceTrusted (List.replicate 12 [1]) 3 none⟩)] :=
  ⟨by decide, by decide, by decide,
    multi_window_stitching (List.replicate 12 'a') [0, 1, 2] 0
      (List.replicate 12 0) (List.replicate 12 0) (List.replicate 12 0)
      (List.replicate 12 0) (List.replicate 12 1) (List.replicate 12 2)
      (List.replicate 12 [1]) (List.replicate 12 [1]) (List.replicate 12 [1])
      0 1 2 rfl rfl rfl rfl rfl rfl
      (by decide) (by decide) (by decide) (by decide) (by decide) (by decide)⟩

/-- Witness for `coverage_exactly_once`: `step = 3`, windows
`(0, 11)` and `(3, 11)`, position 7. -/
theorem coverage_exactly_once_witness :
    0 < 3 ∧ 7 < docEnd [(0, 11), (3, 11)] ∧
    docCoverCount 3 [(0, 11), (3, 11)] 7 = 1 :=
  ⟨by decide, by decide,
    coverage_exactly_once 3 [(0, 11), (3, 11)] 7 (by decide)
      (StrideWindows.cons 0 11 [(3, 11)] (by decide)
        (StrideWindows.last 3 11 (by decide)))
      (by decide)⟩
